import Mathlib

/-!
# go-portalloc: a shallow embedding of the core packages

This file embeds the core logic of the `go-portalloc` repository
(packages `pkg/ports`, `pkg/isolation`, `pkg/state`) into Lean 4 and
proves the specification claims about it.

Modelling conventions:
* Go `int` is modelled as `Int` (64-bit overflow never matters at the
  values involved in these claims).
* The filesystem is modelled explicitly: an association list of file
  paths to contents plus a list of directory paths.
* Effectful OS primitives (TCP bindability, process liveness probes,
  the bytes of a SHA-256 digest, random values) are oracle parameters
  of the embedded functions: the Go control flow around them is
  translated faithfully.
* Injectable IO faults (a `mkdir` failing, a `remove` failing, …) are
  boolean parameters; a step with its fault flag set behaves as the Go
  error branch does.
-/

namespace GoPortalloc

/-! ## Go standard-library helpers

String primitives are implemented by structural recursion over the
character list (Lean's built-in `String.splitOn`/`startsWith`/… use
well-founded recursion, which blocks kernel evaluation); the semantics
is that of the Go functions they model. -/

/-- The characters before the first `sep`, and the rest; `none` when
`sep` does not occur. -/
def splitAtCharFirst (sep : Char) : List Char → Option (List Char × List Char)
  | [] => none
  | c :: cs =>
    if c = sep then some ([], cs)
    else (splitAtCharFirst sep cs).map (fun kv => (c :: kv.1, kv.2))

/-- `strings.SplitN(line, "=", 2)`: split at the first `=` only.
Returns `none` when the line contains no `=` (Go would return a
one-element slice, which the callers skip). -/
def splitKV (line : String) : Option (String × String) :=
  (splitAtCharFirst '=' line.data).map (fun kv => (⟨kv.1⟩, ⟨kv.2⟩))

/-- `strings.Split` on a single-character separator (the general
splitter specialised to the separators used by this repository). -/
def splitChar (sep : Char) : List Char → List String
  | [] => [""]
  | c :: cs =>
    if c = sep then "" :: splitChar sep cs
    else
      match splitChar sep cs with
      | [] => [⟨[c]⟩]
      | t :: ts => (⟨c :: t.data⟩ : String) :: ts

/-- The lines produced by `bufio.Scanner` with the default `ScanLines`
split: split on `\n`, with no empty final token for a trailing newline. -/
def goLines (s : String) : List String :=
  let ls := splitChar '\n' s.data
  if ls.getLast? = some "" then ls.dropLast else ls

/-- `strings.HasPrefix`. -/
def goStartsWith (s pre : String) : Bool :=
  pre.data.isPrefixOf s.data

/-- `strings.HasSuffix`. -/
def goEndsWith (s post : String) : Bool :=
  post.data.reverse.isPrefixOf s.data.reverse

/-- The Go slice `s[n:]` on a string (drop the first `n` characters;
all strings involved are ASCII, so bytes and characters coincide). -/
def goDrop (s : String) (n : Nat) : String :=
  ⟨s.data.drop n⟩

/-- The Go slice `s[:len(s)-n]` (drop the last `n` characters). -/
def goDropRight (s : String) (n : Nat) : String :=
  ⟨s.data.take (s.data.length - n)⟩

/-- Value of a list of decimal digit characters. -/
def digitsVal (cs : List Char) : Nat :=
  cs.foldl (fun a c => a * 10 + (c.toNat - '0'.toNat)) 0

/-- `strconv.Atoi` (also `strconv.ParseInt(s, 10, 64)`): an optional
sign followed by at least one decimal digit; anything else is an
error (`none`).  64-bit range errors are not modelled: no input in
this development comes near `2^63`. -/
def goAtoi (s : String) : Option Int :=
  let cs := s.toList
  let core : Bool → List Char → Option Int := fun neg ds =>
    if ds ≠ [] ∧ ds.all Char.isDigit then
      some (if neg then -(digitsVal ds : Int) else (digitsVal ds : Int))
    else none
  match cs with
  | '+' :: rest => core false rest
  | '-' :: rest => core true rest
  | _ => core false cs

/-- `filepath.Join` for the two-argument calls in this repository:
none of the joined components is empty except possibly the first, and
none contains `.` or `..` segments, so `Clean` is the identity. -/
def goJoin (a b : String) : String :=
  if a = "" then b else a ++ "/" ++ b

/-! ## pkg/ports and pkg/isolation: PortRange

`ports.PortRange` and `isolation.PortRange` are two textually
identical implementations (`allocator.go:291-336`, `ports.go:17-38`);
they are embedded once. -/

structure PortRange where
  BasePort : Int
  Count : Int
deriving Repr, DecidableEq

/-- `PortRange.Ports` (`allocator.go:308`): `make([]int, Count)`
filled with `BasePort + i`.  (Go `make` panics for a negative
`Count`; the model is meaningful only for `Count ≥ 0`, which is the
data-model invariant.) -/
def PortRange.Ports (pr : PortRange) : List Int :=
  (List.range pr.Count.toNat).map (fun i : Nat => pr.BasePort + (i : Int))

/-- `PortRange.GetPort` (`allocator.go:331`): bounds-checked indexing. -/
def PortRange.GetPort (pr : PortRange) (index : Int) : Except String Int :=
  if index < 0 ∨ index ≥ pr.Count then
    .error "index out of range"
  else
    .ok (pr.BasePort + index)

/-! ## pkg/ports: Allocator (`allocator.go`)

The TCP bindability probe `isPortAvailable` is an oracle
`avail : Int → Bool`; the cryptographically secure random source is an
oracle `rand : Nat → Nat` giving the raw `uint64` drawn at each
attempt (`randomIntn` reduces it modulo the range size). -/

structure AllocatorConfig where
  StartPort : Int
  EndPort : Int
  MaxRetries : Nat
deriving Repr, DecidableEq

inductive AllocErr where
  | invalidCount
  | insufficientRange
  | exhausted
deriving Repr, DecidableEq

/-- `arePortsAvailable` (`allocator.go:197`): every port in
`[basePort, basePort+count)` passes the bind probe. -/
def arePortsAvailable (avail : Int → Bool) (basePort count : Int) : Bool :=
  (List.range count.toNat).all (fun i : Nat => avail (basePort + (i : Int)))

/-- The retry loop body of `AllocateRange` (`allocator.go:176-191`).
`fuel` is the number of attempts left (`MaxRetries - attempt`); the
offset is `randomIntn(portRange)` = raw value mod `portRange`. -/
def allocLoop (startPort : Int) (avail : Int → Bool) (rand : Nat → Nat)
    (portsNeeded : Int) (portRange : Nat) (attempt fuel : Nat) : Except AllocErr Int :=
  match fuel with
  | 0 => .error .exhausted
  | fuel' + 1 =>
    let offset : Nat := rand attempt % portRange
    let basePort := startPort + (offset : Int)
    if arePortsAvailable avail basePort portsNeeded then .ok basePort
    else allocLoop startPort avail rand portsNeeded portRange (attempt + 1) fuel'

/-- `Allocator.AllocateRange` (`allocator.go:166-194`). -/
def AllocateRange (cfg : AllocatorConfig) (avail : Int → Bool) (rand : Nat → Nat)
    (portsNeeded : Int) : Except AllocErr Int :=
  if portsNeeded ≤ 0 then .error .invalidCount
  else
    let portRange := cfg.EndPort - cfg.StartPort - portsNeeded
    if portRange ≤ 0 then .error .insufficientRange
    else allocLoop cfg.StartPort avail rand portsNeeded portRange.toNat 0 cfg.MaxRetries

/-! ## A small filesystem model

Association list of file paths to contents, plus a list of directory
paths.  `writeFile` keeps the list duplicate-free. -/

structure FS where
  files : List (String × String)
  dirs : List String
deriving Repr, DecidableEq

def FS.fileContent (fs : FS) (p : String) : Option String :=
  (fs.files.find? (fun e => e.1 == p)).map (·.2)

def FS.isFile (fs : FS) (p : String) : Bool :=
  (fs.fileContent p).isSome

def FS.isDir (fs : FS) (p : String) : Bool :=
  fs.dirs.contains p

/-- `os.Stat(p)` succeeds: a file or a directory exists at `p`.  This
is the Go helper `fileExists` (`part_008:182-185`). -/
def FS.statExists (fs : FS) (p : String) : Bool :=
  fs.isFile p || fs.isDir p

def FS.writeFile (fs : FS) (p c : String) : FS :=
  { fs with files := (p, c) :: fs.files.eraseP (fun e => e.1 == p) }

/-- `os.Remove` on a plain file (the not-found case is handled by the
callers). -/
def FS.removeFile (fs : FS) (p : String) : FS :=
  { fs with files := fs.files.eraseP (fun e => e.1 == p) }

/-- `os.MkdirAll`: no-op when the directory already exists.  (The
parent, `os.TempDir()`, always exists.) -/
def FS.mkdir (fs : FS) (p : String) : FS :=
  if fs.dirs.contains p then fs else { fs with dirs := p :: fs.dirs }

/-- `os.RemoveAll p`: removes whatever is at `p`.  (No operation in
this development creates entries underneath a temp directory, so
removing the node itself suffices.) -/
def FS.removeDirAll (fs : FS) (p : String) : FS :=
  { files := fs.files.eraseP (fun e => e.1 == p), dirs := fs.dirs.erase p }

/-! ## pkg/isolation: identifier generator and lock registry (`part_008`) -/

structure Config where
  WorktreePath : String
  InstanceID : String
  LockDir : String
  MaxRetries : Nat
deriving Repr, DecidableEq

/-- The lock file path for an isolation id
(`filepath.Join(LockDir, "env-<id>.lock")`). -/
def lockFilePath (cfg : Config) (id : String) : String :=
  goJoin cfg.LockDir ("env-" ++ id ++ ".lock")

/-- The temp directory path for an isolation id
(`filepath.Join(os.TempDir(), "aigis-test-<id>")`). -/
def tmpDirPath (tmpRoot id : String) : String :=
  goJoin tmpRoot ("aigis-test-" ++ id)

/-- The metadata written into a fresh lock file (`part_008:153-157`). -/
def lockMetadata (pid ts : Int) (worktree : String) : String :=
  "PID=" ++ toString pid ++ "\nTimestamp=" ++ toString ts ++
    "\nWorktree=" ++ worktree ++ "\n"

/-- `IDGenerator.CreateLock` (`part_008:141-165`): atomic
create-if-absent (`O_CREATE|O_EXCL`), then the metadata write.
`writeOk = false` injects a `WriteString` fault, in which case the Go
code removes the just-created file again and errors, leaving the
filesystem unchanged. -/
def CreateLock (cfg : Config) (pid ts : Int) (writeOk : Bool) (id : String)
    (fs : FS) : Except Unit (String × FS) :=
  let lockFile := lockFilePath cfg id
  if fs.statExists lockFile then .error ()
  else if ¬ writeOk then .error ()
  else .ok (lockFile, fs.writeFile lockFile (lockMetadata pid ts cfg.WorktreePath))

/-- `IDGenerator.ReleaseLock` (`part_008:168-174`): `os.Remove`,
ignoring `IsNotExist`.  `fault = true` injects a real remove error
(only possible while the file exists), which is returned and leaves
the file in place. -/
def ReleaseLock (cfg : Config) (fault : Bool) (id : String) (fs : FS) :
    Except Unit Unit × FS :=
  let p := lockFilePath cfg id
  if fs.isFile p ∧ fault then (.error (), fs)
  else (.ok (), fs.removeFile p)

/-- `IDGenerator.IsLocked` (`part_008:177-180`). -/
def IsLocked (cfg : Config) (id : String) (fs : FS) : Bool :=
  fs.statExists (lockFilePath cfg id)

/-! ### `IDGenerator.Generate` (`part_008:87-138`)

The SHA-256 digest of the entropy string is an oracle
`hashBytes : Nat → Fin 256` (byte `i` of the digest); the secure
random `int64` drawn on retry `k` is an oracle `addRand : Nat → Int`. -/

structure GenOracles where
  hashBytes : Nat → Fin 256
  addRand : Nat → Int

def hexDigitChar (n : Nat) : Char :=
  if n < 10 then Char.ofNat ('0'.toNat + n) else Char.ofNat ('a'.toNat + (n - 10))

/-- `%x` of one byte: two lowercase hex digits. -/
def hexByte (b : Fin 256) : String :=
  String.mk [hexDigitChar ((b : Nat) / 16), hexDigitChar ((b : Nat) % 16)]

/-- `fmt.Sprintf("%x", hash[:6])`: the 12-character base token
(`part_008:110`). -/
def baseIDOf (hashBytes : Nat → Fin 256) : String :=
  String.join (((List.range 6).map hashBytes).map hexByte)

/-- Decimal digits of `n`, left-padded with zeros to width `w`
(never truncating). -/
def padNat (w n : Nat) : String :=
  let s := toString n
  if s.length < w then String.mk (List.replicate (w - s.length) '0') ++ s else s

/-- Go `fmt.Sprintf("%0wd", v)`: zero padding to total width `w`,
sign included. -/
def goPad0 (w : Nat) (v : Int) : String :=
  if v < 0 then "-" ++ padNat (w - 1) v.natAbs else padNat w v.toNat

/-- The candidate id at retry `counter` (`part_008:115-123`):
the base id itself on the first attempt, otherwise
`fmt.Sprintf("%s%04d%03d", baseID, additionalRandom%10000, counter)`
(Go `%` is truncated remainder). -/
def candidateID (o : GenOracles) (baseID : String) (counter : Nat) : String :=
  if counter = 0 then baseID
  else baseID ++ goPad0 4 ((o.addRand counter).tmod 10000) ++ goPad0 3 counter

/-- The collision-retry loop of `Generate` (`part_008:113-135`);
`occupied id` is `fileExists(lockFile) || fileExists(tmpDir)` for the
candidate. -/
def genLoop (o : GenOracles) (occupied : String → Bool) (baseID : String) :
    (counter fuel : Nat) → Except Unit String
  | _, 0 => .error ()
  | counter, fuel' + 1 =>
    let isolationID := candidateID o baseID counter
    if ¬ occupied isolationID then .ok isolationID
    else genLoop o occupied baseID (counter + 1) fuel'

/-- `IDGenerator.Generate` (`part_008:87-138`). -/
def Generate (cfg : Config) (tmpRoot : String) (o : GenOracles) (fs : FS) :
    Except Unit String :=
  genLoop o
    (fun id => fs.statExists (lockFilePath cfg id) ||
               fs.statExists (tmpDirPath tmpRoot id))
    (baseIDOf o.hashBytes) 0 cfg.MaxRetries

/-! ## pkg/isolation: EnvironmentManager (`environment.go`) -/

structure Environment where
  ID : String
  WorktreePath : String
  TempDir : String
  Ports : PortRange
  LockFile : String
  EnvFile : String   -- "" (the Go zero value) until the descriptor file is written
deriving Repr, DecidableEq

def portNames : List String :=
  ["FIRESTORE_PORT", "AUTH_PORT", "API_PORT", "METRICS_PORT", "DEBUG_PORT"]

/-- The text written by `createEnvFile` (`environment.go:121-136`). -/
def envFileContent (env : Environment) : String :=
  let header := "# Parallel Test Environment Isolation\n# Generated: " ++ env.ID ++ "\n\n"
  let base := "ISOLATION_ID=" ++ env.ID ++ "\nTEMP_DIR=" ++ env.TempDir ++
    "\nPORT_BASE=" ++ toString env.Ports.BasePort ++
    "\nPORT_COUNT=" ++ toString env.Ports.Count ++ "\n"
  let named := (List.range (min env.Ports.Count.toNat portNames.length)).foldl
    (fun acc i =>
      match env.Ports.GetPort (Int.ofNat i) with
      | .ok port => acc ++ (portNames.getD i "") ++ "=" ++ toString port ++ "\n"
      | .error _ => acc) ""
  header ++ base ++ named

/-- `createEnvFile` (`environment.go:110-139`): `os.Create` then the
writes (whose errors Go discards).  `createOk = false` injects an
`os.Create` fault: no file is created. -/
def createEnvFile (createOk : Bool) (env : Environment) (fs : FS) :
    Except Unit (String × FS) :=
  let envFilePath := goJoin env.WorktreePath ".env.isolation"
  if ¬ createOk then .error ()
  else .ok (envFilePath, fs.writeFile envFilePath (envFileContent env))

/-- Which of the three cleanup steps produced a real error. -/
inductive CleanupStep where
  | tempDir
  | envFile
  | lock
deriving Repr, DecidableEq

structure CleanupFaults where
  tempFail : Bool
  envFileFail : Bool
  lockFail : Bool
deriving Repr, DecidableEq

def noCleanupFaults : CleanupFaults := ⟨false, false, false⟩

/-- `EnvironmentManager.Cleanup` (`environment.go:142-167`): removes
the temp directory, removes the descriptor file (skipped when
`EnvFile` is empty), releases the lock — each step runs regardless of
earlier failures, "not found" never counts as an error, and the real
errors are aggregated into the returned list (Go returns an error
exactly when that list is non-empty).  A fault flag injects a real
error into the corresponding step; a real remove error is only
possible while the resource exists, and leaves it in place.

Step 1 of `Cleanup`: `os.RemoveAll(env.TempDir)`, keeping real
errors only (`!os.IsNotExist`). -/
def cleanupTempStep (f : CleanupFaults) (env : Environment) (fs : FS) :
    List CleanupStep × FS :=
  if fs.statExists env.TempDir ∧ f.tempFail then ([CleanupStep.tempDir], fs)
  else ([], fs.removeDirAll env.TempDir)

/-- Step 2 of `Cleanup`: `os.Remove(env.EnvFile)` when `EnvFile` is
non-empty, keeping real errors only. -/
def cleanupEnvFileStep (f : CleanupFaults) (env : Environment) (fs : FS) :
    List CleanupStep × FS :=
  if env.EnvFile = "" then ([], fs)
  else if fs.isFile env.EnvFile ∧ f.envFileFail then ([CleanupStep.envFile], fs)
  else ([], fs.removeFile env.EnvFile)

/-- Step 3 of `Cleanup`: `ReleaseLock(env.ID)`, whose error (if any)
is recorded. -/
def cleanupLockStep (cfg : Config) (f : CleanupFaults) (env : Environment)
    (fs : FS) : List CleanupStep × FS :=
  match ReleaseLock cfg f.lockFail env.ID fs with
  | (.ok _, fs') => (([] : List CleanupStep), fs')
  | (.error _, fs') => ([CleanupStep.lock], fs')

def Cleanup (cfg : Config) (f : CleanupFaults) (env : Environment) (fs : FS) :
    List CleanupStep × FS :=
  let r1 := cleanupTempStep f env fs
  let r2 := cleanupEnvFileStep f env r1.2
  let r3 := cleanupLockStep cfg f env r2.2
  (r1.1 ++ r2.1 ++ r3.1, r3.2)

structure CreateFaults where
  genOk : Bool        -- `Generate` succeeded
  lockWriteOk : Bool  -- the lock metadata write succeeded
  portsOk : Bool      -- `AllocateRange` succeeded
  mkdirOk : Bool      -- `os.MkdirAll` succeeded
  createOk : Bool     -- `os.Create` of the descriptor file succeeded
deriving Repr, DecidableEq

/-- `EnvironmentManager.CreateEnvironment` (`environment.go:60-107`):
generate id → create lock → allocate ports → create temp directory →
write descriptor file, with the code's rollback on each failure path
(`ReleaseLock` after port or mkdir failure, full `Cleanup` after a
descriptor failure — that rollback is the best-effort
`_ = em.Cleanup(env)` call, modelled fault-free).  `id` is the value
`Generate` would return and `basePort` the value `AllocateRange`
would return; the fault flags select the failing step. -/
def CreateEnvironment (cfg : Config) (tmpRoot : String) (pid ts : Int)
    (f : CreateFaults) (id : String) (basePort portsNeeded : Int) (fs : FS) :
    Except Unit Environment × FS :=
  if ¬ f.genOk then (.error (), fs)
  else
    match CreateLock cfg pid ts f.lockWriteOk id fs with
    | .error _ => (.error (), fs)
    | .ok (lockFile, fs1) =>
      if ¬ f.portsOk then (.error (), (ReleaseLock cfg false id fs1).2)
      else
        let tmpDir := tmpDirPath tmpRoot id
        if ¬ f.mkdirOk then (.error (), (ReleaseLock cfg false id fs1).2)
        else
          let fs2 := fs1.mkdir tmpDir
          let env : Environment :=
            { ID := id, WorktreePath := cfg.WorktreePath, TempDir := tmpDir,
              Ports := ⟨basePort, portsNeeded⟩, LockFile := lockFile, EnvFile := "" }
          match createEnvFile f.createOk env fs2 with
          | .error _ => (.error (), (Cleanup cfg noCleanupFaults env fs2).2)
          | .ok (envFile, fs3) => (.ok { env with EnvFile := envFile }, fs3)

/-! ## pkg/state: types (`types.go`) -/

structure PortsState where
  BasePort : Int := 0
  Count : Int := 0
  Allocated : List Int := []
deriving Repr, DecidableEq

structure EnvironmentState where
  ID : String
  PID : Int
  CreatedAt : Int    -- Unix seconds (`time.Unix(timestamp, 0)`)
  WorktreePath : String
  TempDir : String
  LockFile : String
  EnvFile : String
  Ports : PortsState
deriving Repr, DecidableEq

def CurrentVersion : String := "1.0"

structure State where
  Version : String
  Environments : List EnvironmentState
  LastReconciledAt : Int
deriving Repr, DecidableEq

inductive EnvironmentStatus where
  | active
  | stale
deriving Repr, DecidableEq

/-! ## pkg/state: Reconcile (`reconcile.go`) -/

/-- `parseEnvFile` (`reconcile.go:130-163`): scan the descriptor file
for `PORT_BASE=`/`PORT_COUNT=` lines (an unreadable file yields the
zero `PortsState`), then reconstruct the allocated list when both are
positive. -/
def parseEnvFile (content? : Option String) : PortsState :=
  match content? with
  | none => {}
  | some c =>
    let scanned := (goLines c).foldl
      (fun (ps : PortsState) line =>
        if goStartsWith line "PORT_BASE=" then
          match goAtoi (goDrop line 10) with
          | some v => { ps with BasePort := v }
          | none => ps
        else if goStartsWith line "PORT_COUNT=" then
          match goAtoi (goDrop line 11) with
          | some v => { ps with Count := v }
          | none => ps
        else ps)
      { Allocated := [] }
    if scanned.BasePort > 0 ∧ scanned.Count > 0 then
      { scanned with
        Allocated :=
          (List.range scanned.Count.toNat).map (fun i : Nat => scanned.BasePort + (i : Int)) }
    else scanned

/-- The `KEY=VALUE` scan of a lock file's lines
(`reconcile.go:91-99`): a Go map assignment, so the last occurrence
of a key wins; keys never assigned read as `""`. -/
def metaOf (lines : List String) : String → String :=
  lines.foldl
    (fun m line =>
      match splitKV line with
      | some (k, v) => fun q => if q = k then v else m q
      | none => m)
    (fun _ => "")

/-- The lock-name pattern: `env-*.lock`.  Both the glob in `Reconcile`
(`reconcile.go:34`) and the name check in `parseLockFile`
(`reconcile.go:79`) accept exactly the names with this prefix and
suffix (the glob's `*` matches any run of non-separator characters,
and directory entries contain no separator). -/
def matchesLockPattern (name : String) : Bool :=
  goStartsWith name "env-" && goEndsWith name ".lock"

/-- A directory entry of the lock directory: its file name and its
content (`none` when the file cannot be opened or read, the
unreadable-metadata case). -/
structure LockEntry where
  name : String
  content : Option String
deriving Repr, DecidableEq

/-- `Manager.parseLockFile` (`reconcile.go:76-127`): id from the file
name, `KEY=VALUE` metadata (unparsable `PID`/`Timestamp` read as 0,
per the discarded `Atoi` errors), reconstructed temp-dir and
descriptor paths, and the port set parsed from the descriptor file.
`envFS` is the filesystem view used to read descriptor files. -/
def parseLockFile (tmpRoot : String) (envFS : String → Option String)
    (lockDir : String) (e : LockEntry) : Option EnvironmentState :=
  if ¬ matchesLockPattern e.name then none
  else
    match e.content with
    | none => none
    | some c =>
      let isolationID := goDropRight (goDrop e.name 4) 5
      let meta := metaOf (goLines c)
      let pid := (goAtoi (meta "PID")).getD 0
      let timestamp := (goAtoi (meta "Timestamp")).getD 0
      let worktree := meta "Worktree"
      some
        { ID := isolationID
          PID := pid
          CreatedAt := timestamp
          WorktreePath := worktree
          TempDir := tmpDirPath tmpRoot isolationID
          LockFile := goJoin lockDir e.name
          EnvFile := goJoin worktree ".env.isolation"
          Ports := parseEnvFile (envFS (goJoin worktree ".env.isolation")) }

/-- The contents of the state file, as the `state` package reads it:
absent, an empty file (which `readState` decodes as the fresh default
state), a complete JSON document, or undecodable bytes. -/
inductive StateFile where
  | missing
  | emptyFile
  | doc (s : State)
  | corrupt
deriving Repr, DecidableEq

/-- `Manager.Reconcile` (`reconcile.go:29-73`): glob the lock
directory, parse each matching entry — skipping the ones that fail to
parse — and write the rebuilt document wholesale over whatever the
state file previously held (the file is opened with `O_TRUNC` and
never read).  `listing` is the lock directory's entries; returns the
count `len(newState.Environments)`, the document written, and the
new state-file content. -/
def Reconcile (tmpRoot : String) (envFS : String → Option String)
    (lockDir : String) (listing : List LockEntry) (now : Int)
    (_prev : StateFile) : (Nat × State) × StateFile :=
  let lockFiles := listing.filter (fun e => matchesLockPattern e.name)
  let envs := lockFiles.filterMap (parseLockFile tmpRoot envFS lockDir)
  let newState : State := ⟨CurrentVersion, envs, now⟩
  ((envs.length, newState), .doc newState)

/-- `IsProcessRunning` (`reconcile.go:166-180`): non-positive pids are
never running; otherwise probe with signal 0.  `signalOk pid` is the
oracle "`os.FindProcess(pid)` succeeded and `Signal(0)` returned no
error". -/
def IsProcessRunning (signalOk : Int → Bool) (pid : Int) : Bool :=
  if pid ≤ 0 then false else signalOk pid

/-- `GetEnvironmentStatus` (`reconcile.go:183-188`). -/
def GetEnvironmentStatus (signalOk : Int → Bool) (env : EnvironmentState) :
    EnvironmentStatus :=
  if IsProcessRunning signalOk env.PID then .active else .stale

/-! ## pkg/state: Manager reads (`part_010`) -/

/-- `Manager.readState` (`part_010:65-86`), on an opened state file:
an empty file is the fresh default state, otherwise JSON-decode. -/
def readState (f : StateFile) : Except Unit State :=
  match f with
  | .missing => .error ()
  | .emptyFile => .ok ⟨CurrentVersion, [], 0⟩
  | .doc s => .ok s
  | .corrupt => .error ()

/-- `Manager.ListEnvironments` (`part_010:203-232`): a missing state
file yields the empty list with no error, before any open — in
particular the file is not created (`O_RDONLY`, no `O_CREATE`).
Returns the result and the state file afterwards. -/
def ListEnvironments (f : StateFile) :
    Except Unit (List EnvironmentState) × StateFile :=
  match f with
  | .missing => (.ok [], .missing)
  | g =>
    match readState g with
    | .ok s => (.ok s.Environments, g)
    | .error e => (.error e, g)

inductive GetEnvErr where
  | ioErr
  | notFound (id : String)
deriving Repr, DecidableEq

/-- `Manager.GetEnvironment` (`part_010:235-248`): list, then linear
search by id. -/
def GetEnvironment (f : StateFile) (id : String) :
    Except GetEnvErr EnvironmentState × StateFile :=
  match ListEnvironments f with
  | (.ok envs, g) =>
    match envs.find? (fun e => e.ID == id) with
    | some env => (.ok env, g)
    | none => (.error (.notFound id), g)
  | (.error _, g) => (.error .ioErr, g)

/-! ## The state-file locking discipline (`part_010`, `reconcile.go`)

A small-step trace model for the atomicity claim: each syscall of the
three mutating operations is one action, and the state tracks the
file content together with whether the mutator holds the exclusive
flock. -/

inductive StAction where
  | openCreate            -- `O_RDWR|O_CREATE` (RecordEnvironment, RemoveEnvironment)
  | openCreateTrunc       -- `O_RDWR|O_CREATE|O_TRUNC` (Reconcile)
  | flockEx               -- `Flock(LOCK_EX)`
  | flockUn               -- `Flock(LOCK_UN)`
  | readDoc               -- `readState`: no content change
  | truncateSeek          -- `writeState`: `Truncate(0)` + `Seek`
  | writeJSON (s : State) -- `writeState`: `encoder.Encode`
  | fsync                 -- `writeState`: `f.Sync()`
deriving DecidableEq

structure LockTraceState where
  content : StateFile
  exclusiveHeld : Bool
deriving DecidableEq

def stStep (st : LockTraceState) (a : StAction) : LockTraceState :=
  match a with
  | .openCreate =>
    { st with content := if st.content = .missing then .emptyFile else st.content }
  | .openCreateTrunc => { st with content := .emptyFile }
  | .flockEx => { st with exclusiveHeld := true }
  | .flockUn => { st with exclusiveHeld := false }
  | .readDoc => st
  | .truncateSeek => { st with content := .emptyFile }
  | .writeJSON s => { st with content := .doc s }
  | .fsync => st

/-- `Manager.writeState` (`part_010:89-108`): truncate, seek, encode,
sync. -/
def writeStateActions (s : State) : List StAction :=
  [.truncateSeek, .writeJSON s, .fsync]

/-- The syscall sequence of `RecordEnvironment` (`part_010:111-163`):
open (`O_CREATE`), flock exclusive, read, write the updated document,
unlock.  `s` is the document it writes. -/
def recordEnvironmentTrace (s : State) : List StAction :=
  [.openCreate, .flockEx, .readDoc] ++ writeStateActions s ++ [.flockUn]

/-- The syscall sequence of `RemoveEnvironment` (`part_010:166-200`):
identical shape to `RecordEnvironment`. -/
def removeEnvironmentTrace (s : State) : List StAction :=
  [.openCreate, .flockEx, .readDoc] ++ writeStateActions s ++ [.flockUn]

/-- The syscall sequence of `Reconcile` (`reconcile.go:57-66`): open
with `O_TRUNC`, flock exclusive, write the rebuilt document, unlock.
Note the `O_TRUNC` happens at open, before the flock. -/
def reconcileTrace (s : State) : List StAction :=
  [.openCreateTrunc, .flockEx] ++ writeStateActions s ++ [.flockUn]

/-- The states visited while executing a trace: the initial state,
each intermediate state, and the final state. -/
def stExec (st : LockTraceState) : List StAction → List LockTraceState
  | [] => [st]
  | a :: as => st :: stExec (stStep st a) as

/-- The (state-before, action) pairs of a trace execution. -/
def stStepsFrom (st : LockTraceState) : List StAction → List (LockTraceState × StAction)
  | [] => []
  | a :: as => (st, a) :: stStepsFrom (stStep st a) as

/-- An action mutates the file content in a given configuration. -/
def stMutates (c : StateFile) (a : StAction) : Bool :=
  (stStep ⟨c, false⟩ a).content != c

/-- The file holds a complete JSON state document. -/
def isCompleteDoc (c : StateFile) : Bool :=
  match c with
  | .doc _ => true
  | _ => false

/-! ## Auxiliary predicates and concrete scenarios -/

/-- A well-formed filesystem: paths are unique. -/
def FS.wf (fs : FS) : Prop :=
  (fs.files.map Prod.fst).Nodup ∧ fs.dirs.Nodup

/-- A lowercase hexadecimal character. -/
def isHexChar (c : Char) : Bool :=
  ('0' ≤ c ∧ c ≤ '9') || ('a' ≤ c ∧ c ≤ 'f')

/-- The descriptor files of the three-environment reconcile scenario
(`PORT_BASE=20000/20100/20200`, `PORT_COUNT=5`). -/
def scenarioEnvFS : String → Option String := fun p =>
  if p = "/w0/.env.isolation" then some "PORT_BASE=20000\nPORT_COUNT=5\n"
  else if p = "/w1/.env.isolation" then some "PORT_BASE=20100\nPORT_COUNT=5\n"
  else if p = "/w2/.env.isolation" then some "PORT_BASE=20200\nPORT_COUNT=5\n"
  else none

/-- A well-formed lock file of the reconcile scenario. -/
def scenarioEntry (i w : String) : LockEntry :=
  ⟨"env-test" ++ i ++ ".lock", some (lockMetadata 4242 1700000000 w)⟩

/-- The lock directory of the reconcile scenario: three well-formed
lock files. -/
def scenarioListing : List LockEntry :=
  [scenarioEntry "0" "/w0", scenarioEntry "1" "/w1", scenarioEntry "2" "/w2"]

/-- The environment entry the scenario's lock file `i` should yield. -/
def scenarioEnvState (i w : String) (base : Int) : EnvironmentState :=
  { ID := "test" ++ i
    PID := 4242
    CreatedAt := 1700000000
    WorktreePath := w
    TempDir := "/tmp/aigis-test-test" ++ i
    LockFile := "/locks/env-test" ++ i ++ ".lock"
    EnvFile := w ++ "/.env.isolation"
    Ports := ⟨base, 5, [base, base + 1, base + 2, base + 3, base + 4]⟩ }

/-- A concrete state document for the locking-discipline scenarios. -/
def exampleDoc : State := ⟨CurrentVersion, [], 0⟩

/-- The document written by the mutator in the locking-discipline
scenarios. -/
def exampleWritten : State := ⟨CurrentVersion, [], 7⟩

/-! # Theorems -/

/-! ## Filesystem lemmas -/

theorem find?_eraseP_of_ne {β : Type} (l : List (String × β)) (p q : String)
    (h : p ≠ q) :
    (l.eraseP (fun e => e.1 == q)).find? (fun e => e.1 == p) =
      l.find? (fun e => e.1 == p) := by
  induction l with
  | nil => rfl
  | cons x xs ih =>
    by_cases hx : x.1 = q
    · rw [List.eraseP_cons_of_pos (by simp [hx])]
      rw [List.find?_cons_of_neg _ (by simp [hx, Ne.symm h])]
    · rw [List.eraseP_cons_of_neg (by simp [hx])]
      by_cases hxp : x.1 = p
      · rw [List.find?_cons_of_pos _ (by simp [hxp]),
          List.find?_cons_of_pos _ (by simp [hxp])]
      · rw [List.find?_cons_of_neg _ (by simp [hxp]),
          List.find?_cons_of_neg _ (by simp [hxp]), ih]

theorem find?_eraseP_self_of_nodup {β : Type} (l : List (String × β)) (p : String)
    (h : (l.map Prod.fst).Nodup) :
    (l.eraseP (fun e => e.1 == p)).find? (fun e => e.1 == p) = none := by
  induction l with
  | nil => rfl
  | cons x xs ih =>
    rw [List.map_cons, List.nodup_cons] at h
    by_cases hx : x.1 = p
    · rw [List.eraseP_cons_of_pos (by simp [hx])]
      rw [List.find?_eq_none]
      rintro e he hep
      exact h.1 (hx ▸ (by simpa using hep) ▸ List.mem_map_of_mem Prod.fst he)
    · rw [List.eraseP_cons_of_neg (by simp [hx])]
      rw [List.find?_cons_of_neg _ (by simp [hx])]
      exact ih h.2

theorem find?_none_of_subset {β : Type} (l l' : List (String × β)) (p : String)
    (hsub : ∀ e ∈ l', e ∈ l) (h : l.find? (fun e => e.1 == p) = none) :
    l'.find? (fun e => e.1 == p) = none := by
  rw [List.find?_eq_none] at h ⊢
  exact fun e he => h e (hsub e he)

theorem FS.isDir_removeFile (fs : FS) (p q : String) :
    (fs.removeFile q).isDir p = fs.isDir p := rfl

theorem FS.fileContent_removeFile_ne (fs : FS) (p q : String) (h : p ≠ q) :
    (fs.removeFile q).fileContent p = fs.fileContent p := by
  unfold FS.fileContent FS.removeFile
  rw [find?_eraseP_of_ne _ _ _ h]

theorem FS.isFile_removeFile_ne (fs : FS) (p q : String) (h : p ≠ q) :
    (fs.removeFile q).isFile p = fs.isFile p := by
  unfold FS.isFile
  rw [FS.fileContent_removeFile_ne fs p q h]

theorem FS.isFile_removeFile_self (fs : FS) (p : String)
    (h : (fs.files.map Prod.fst).Nodup) :
    (fs.removeFile p).isFile p = false := by
  unfold FS.isFile FS.fileContent FS.removeFile
  rw [find?_eraseP_self_of_nodup _ _ h]
  rfl

theorem FS.isFile_removeFile_of_false (fs : FS) (p q : String)
    (h : fs.isFile p = false) : (fs.removeFile q).isFile p = false := by
  unfold FS.isFile FS.fileContent at h ⊢
  unfold FS.removeFile
  rcases ho : fs.files.find? (fun e => e.1 == p) with - | e
  · rw [find?_none_of_subset fs.files _ p
      (fun e he => List.eraseP_subset _ he) ho]
    rfl
  · rw [ho] at h
    simp at h

theorem FS.removeFile_of_not_isFile (fs : FS) (p : String)
    (h : fs.isFile p = false) : fs.removeFile p = fs := by
  unfold FS.isFile FS.fileContent at h
  rcases ho : fs.files.find? (fun e => e.1 == p) with - | e
  · unfold FS.removeFile
    rw [List.eraseP_of_forall_not (by rw [List.find?_eq_none] at ho; exact ho)]
  · rw [ho] at h
    simp at h

theorem FS.isFile_mkdir (fs : FS) (p q : String) :
    (fs.mkdir q).isFile p = fs.isFile p := by
  unfold FS.mkdir
  split <;> rfl

theorem FS.fileContent_mkdir (fs : FS) (p q : String) :
    (fs.mkdir q).fileContent p = fs.fileContent p := by
  unfold FS.mkdir
  split <;> rfl

theorem FS.isDir_removeDirAll_ne (fs : FS) (p q : String) (h : p ≠ q) :
    (fs.removeDirAll q).isDir p = fs.isDir p := by
  show (fs.dirs.erase q).contains p = fs.dirs.contains p
  simp only [List.contains, List.elem_eq_mem, decide_eq_decide]
  exact List.mem_erase_of_ne h

theorem FS.isDir_removeDirAll_self (fs : FS) (p : String)
    (h : fs.dirs.Nodup) : (fs.removeDirAll p).isDir p = false := by
  show (fs.dirs.erase p).contains p = false
  simp only [List.contains, List.elem_eq_mem, decide_eq_false_iff_not]
  intro hmem
  exact absurd ((h.mem_erase_iff).mp hmem).1 (by simp)

theorem FS.isFile_removeDirAll_ne (fs : FS) (p q : String) (h : p ≠ q) :
    (fs.removeDirAll q).isFile p = fs.isFile p := by
  unfold FS.isFile FS.fileContent FS.removeDirAll
  rw [show ({ files := fs.files.eraseP (fun e => e.1 == q), dirs := fs.dirs.erase q } : FS).files
      = fs.files.eraseP (fun e => e.1 == q) from rfl]
  rw [find?_eraseP_of_ne _ _ _ h]

theorem FS.isFile_removeDirAll_self (fs : FS) (p : String)
    (h : (fs.files.map Prod.fst).Nodup) :
    (fs.removeDirAll p).isFile p = false := by
  unfold FS.isFile FS.fileContent FS.removeDirAll
  rw [show ({ files := fs.files.eraseP (fun e => e.1 == p), dirs := fs.dirs.erase p } : FS).files
      = fs.files.eraseP (fun e => e.1 == p) from rfl]
  rw [find?_eraseP_self_of_nodup _ _ h]
  rfl

theorem FS.removeDirAll_of_absent (fs : FS) (p : String)
    (hf : fs.isFile p = false) (hd : fs.isDir p = false) :
    fs.removeDirAll p = fs := by
  unfold FS.isFile FS.fileContent at hf
  unfold FS.isDir at hd
  unfold FS.removeDirAll
  have h1 : fs.files.eraseP (fun e => e.1 == p) = fs.files := by
    rcases ho : fs.files.find? (fun e => e.1 == p) with - | e
    · exact List.eraseP_of_forall_not (by rw [List.find?_eq_none] at ho; exact ho)
    · rw [ho] at hf; simp at hf
  have h2 : fs.dirs.erase p = fs.dirs := by
    apply List.erase_of_not_mem
    simpa using hd
  rw [h1, h2]

theorem FS.wf_removeFile (fs : FS) (p : String) (h : fs.wf) :
    (fs.removeFile p).wf := by
  obtain ⟨h1, h2⟩ := h
  exact ⟨h1.sublist ((List.eraseP_sublist _).map Prod.fst), h2⟩

theorem FS.wf_removeDirAll (fs : FS) (p : String) (h : fs.wf) :
    (fs.removeDirAll p).wf := by
  obtain ⟨h1, h2⟩ := h
  exact ⟨h1.sublist ((List.eraseP_sublist _).map Prod.fst),
    h2.sublist (List.erase_sublist _ _)⟩

theorem FS.wf_mkdir (fs : FS) (p : String) (h : fs.wf) : (fs.mkdir p).wf := by
  obtain ⟨h1, h2⟩ := h
  unfold FS.mkdir
  split
  · exact ⟨h1, h2⟩
  · next hc =>
    refine ⟨h1, List.nodup_cons.mpr ⟨?_, h2⟩⟩
    simpa using hc

/-- C8: for every `PortRange{base, count}` with `count ≥ 0` and every
integer `i`, `GetPort(i)` returns `base+i` when `0 ≤ i < count` and an
error otherwise, and `Ports()` is exactly the length-`count` list
`[base, base+1, …, base+count-1]` (characterized by its length and its
`k`-th element). -/
theorem c8_portRange_getPort_ports (base count i : Int) (hc : 0 ≤ count) :
    (0 ≤ i ∧ i < count → (PortRange.mk base count).GetPort i = .ok (base + i)) ∧
    (i < 0 ∨ count ≤ i → (PortRange.mk base count).GetPort i = .error "index out of range") ∧
    ((PortRange.mk base count).Ports.length : Int) = count ∧
    (∀ k : Nat, (k : Int) < count →
      ((PortRange.mk base count).Ports)[k]? = some (base + k)) := by
  refine ⟨?_, ?_, ?_, ?_⟩
  · rintro ⟨h0, h1⟩
    simp only [PortRange.GetPort]
    rw [if_neg]
    push_neg
    exact ⟨h0, h1⟩
  · intro h
    simp only [PortRange.GetPort, ge_iff_le]
    rw [if_pos h]
  · rw [PortRange.Ports, List.length_map, List.length_range]
    exact Int.toNat_of_nonneg hc
  · intro k hk
    have hk' : k < count.toNat := by omega
    rw [PortRange.Ports, List.getElem?_map, List.getElem?_range hk']
    rfl

/-- Witness for C8 at `base = 23000`, `count = 5`, `i = 2`. -/
theorem c8_portRange_getPort_ports_witness :
    (PortRange.mk 23000 5).GetPort 2 = .ok 23002 ∧
    ((PortRange.mk 23000 5).Ports.length : Int) = 5 := by
  have h := c8_portRange_getPort_ports 23000 5 2 (by decide)
  exact ⟨h.1 (by constructor <;> decide), h.2.2.1⟩

/-- C4: (with no injected IO fault, and no directory squatting on the
lock path) `CreateLock(id)` fails exactly when the lock file for `id`
already exists; `ReleaseLock(id)` succeeds even when no lock file
exists; and after `ReleaseLock(id)` a subsequent `CreateLock(id)`
succeeds. -/
theorem c4_lock_lifecycle (cfg : Config) (pid ts : Int) (id : String) (fs : FS)
    (hwf : fs.wf) (hdir : fs.isDir (lockFilePath cfg id) = false) :
    (CreateLock cfg pid ts true id fs = .error () ↔
      fs.isFile (lockFilePath cfg id) = true) ∧
    (ReleaseLock cfg false id fs).1 = .ok () ∧
    (∃ fs', CreateLock cfg pid ts true id ((ReleaseLock cfg false id fs).2) =
      .ok (lockFilePath cfg id, fs')) := by
  have hstat : fs.statExists (lockFilePath cfg id) = fs.isFile (lockFilePath cfg id) := by
    unfold FS.statExists
    rw [hdir, Bool.or_false]
  refine ⟨?_, ?_, ?_⟩
  · simp only [CreateLock]
    rw [hstat]
    by_cases hf : fs.isFile (lockFilePath cfg id) = true
    · rw [if_pos hf]
      simp [hf]
    · rw [if_neg hf]
      simp only [Bool.not_eq_true] at hf
      simp [hf]
  · simp [ReleaseLock]
  · have hrel : (ReleaseLock cfg false id fs).2 = fs.removeFile (lockFilePath cfg id) := by
      simp [ReleaseLock]
    refine ⟨(fs.removeFile (lockFilePath cfg id)).writeFile (lockFilePath cfg id)
      (lockMetadata pid ts cfg.WorktreePath), ?_⟩
    rw [hrel]
    simp only [CreateLock]
    rw [if_neg ?_]
    · rfl
    · unfold FS.statExists
      rw [FS.isFile_removeFile_self fs _ hwf.1, FS.isDir_removeFile, hdir]
      simp

/-- Witness for C4 on a concrete filesystem holding one lock file. -/
theorem c4_lock_lifecycle_witness :
    (CreateLock ⟨"/wt", "i", "/locks", 9⟩ 1 2 true "abc"
        ⟨[("/locks/env-abc.lock", "m")], []⟩ = .error () ↔
      FS.isFile ⟨[("/locks/env-abc.lock", "m")], []⟩ "/locks/env-abc.lock" = true) ∧
    (ReleaseLock ⟨"/wt", "i", "/locks", 9⟩ false "abc"
        ⟨[("/locks/env-abc.lock", "m")], []⟩).1 = .ok () ∧
    (∃ fs', CreateLock ⟨"/wt", "i", "/locks", 9⟩ 1 2 true "abc"
        ((ReleaseLock ⟨"/wt", "i", "/locks", 9⟩ false "abc"
          ⟨[("/locks/env-abc.lock", "m")], []⟩).2) =
      .ok ("/locks/env-abc.lock", fs')) := by
  exact c4_lock_lifecycle ⟨"/wt", "i", "/locks", 9⟩ 1 2 "abc"
    ⟨[("/locks/env-abc.lock", "m")], []⟩ (by constructor <;> decide) (by decide)

/-! ## Cleanup lemmas -/

theorem FS.statExists_removeFile_of_false (fs : FS) (p q : String)
    (h : fs.statExists p = false) : (fs.removeFile q).statExists p = false := by
  unfold FS.statExists at h ⊢
  rcases Bool.or_eq_false_iff.mp h with ⟨h1, h2⟩
  rw [FS.isFile_removeFile_of_false _ _ _ h1, FS.isDir_removeFile, h2]
  rfl

theorem cleanupTempStep_absent (f : CleanupFaults) (env : Environment) (fs : FS)
    (hT : fs.statExists env.TempDir = false) :
    cleanupTempStep f env fs = ([], fs) := by
  unfold cleanupTempStep
  rw [if_neg (by simp [hT])]
  rcases Bool.or_eq_false_iff.mp hT with ⟨h1, h2⟩
  rw [FS.removeDirAll_of_absent _ _ h1 h2]

theorem cleanupEnvFileStep_absent (f : CleanupFaults) (env : Environment) (fs : FS)
    (hE : env.EnvFile ≠ "" → fs.isFile env.EnvFile = false) :
    cleanupEnvFileStep f env fs = ([], fs) := by
  unfold cleanupEnvFileStep
  by_cases he : env.EnvFile = ""
  · rw [if_pos he]
  · rw [if_neg he, if_neg (by simp [hE he]), FS.removeFile_of_not_isFile _ _ (hE he)]

theorem cleanupLockStep_absent (cfg : Config) (f : CleanupFaults)
    (env : Environment) (fs : FS)
    (hL : fs.isFile (lockFilePath cfg env.ID) = false) :
    cleanupLockStep cfg f env fs = ([], fs) := by
  simp only [cleanupLockStep, ReleaseLock, hL]
  rw [if_neg (by simp)]
  rw [FS.removeFile_of_not_isFile _ _ hL]

theorem cleanup_absent (cfg : Config) (f : CleanupFaults) (env : Environment)
    (fs : FS) (hT : fs.statExists env.TempDir = false)
    (hE : env.EnvFile ≠ "" → fs.isFile env.EnvFile = false)
    (hL : fs.isFile (lockFilePath cfg env.ID) = false) :
    Cleanup cfg f env fs = ([], fs) := by
  simp only [Cleanup, cleanupTempStep_absent f env fs hT,
    cleanupEnvFileStep_absent f env fs hE, cleanupLockStep_absent cfg f env fs hL,
    List.append_nil, List.nil_append]

/-- After a fault-free `Cleanup`, all three resources are gone and the
filesystem stays well-formed. -/
theorem cleanup_noFaults_clears (cfg : Config) (env : Environment) (fs : FS)
    (hwf : fs.wf) :
    ((Cleanup cfg noCleanupFaults env fs).2).statExists env.TempDir = false ∧
    (env.EnvFile ≠ "" → ((Cleanup cfg noCleanupFaults env fs).2).isFile env.EnvFile = false) ∧
    ((Cleanup cfg noCleanupFaults env fs).2).isFile (lockFilePath cfg env.ID) = false ∧
    ((Cleanup cfg noCleanupFaults env fs).2).wf := by
  have e1 : cleanupTempStep noCleanupFaults env fs = ([], fs.removeDirAll env.TempDir) := by
    unfold cleanupTempStep
    rw [if_neg (by simp [noCleanupFaults])]
  have hwf1 : (fs.removeDirAll env.TempDir).wf := FS.wf_removeDirAll _ _ hwf
  have hT1 : (fs.removeDirAll env.TempDir).statExists env.TempDir = false := by
    unfold FS.statExists
    rw [FS.isFile_removeDirAll_self _ _ hwf.1, FS.isDir_removeDirAll_self _ _ hwf.2]
    rfl
  by_cases he : env.EnvFile = ""
  · have e2 : cleanupEnvFileStep noCleanupFaults env (fs.removeDirAll env.TempDir) =
        ([], fs.removeDirAll env.TempDir) := by
      unfold cleanupEnvFileStep
      rw [if_pos he]
    have e3 : cleanupLockStep cfg noCleanupFaults env (fs.removeDirAll env.TempDir) =
        ([], (fs.removeDirAll env.TempDir).removeFile (lockFilePath cfg env.ID)) := by
      simp only [cleanupLockStep, ReleaseLock, noCleanupFaults]
      rw [if_neg (by simp)]
    simp only [Cleanup, e1, e2, e3]
    refine ⟨FS.statExists_removeFile_of_false _ _ _ hT1,
      fun hne => absurd he hne,
      FS.isFile_removeFile_self _ _ hwf1.1,
      FS.wf_removeFile _ _ hwf1⟩
  · have e2 : cleanupEnvFileStep noCleanupFaults env (fs.removeDirAll env.TempDir) =
        ([], (fs.removeDirAll env.TempDir).removeFile env.EnvFile) := by
      unfold cleanupEnvFileStep
      rw [if_neg he, if_neg (by simp [noCleanupFaults])]
    have hwf2 : ((fs.removeDirAll env.TempDir).removeFile env.EnvFile).wf :=
      FS.wf_removeFile _ _ hwf1
    have e3 : cleanupLockStep cfg noCleanupFaults env
        ((fs.removeDirAll env.TempDir).removeFile env.EnvFile) =
        ([], ((fs.removeDirAll env.TempDir).removeFile env.EnvFile).removeFile
          (lockFilePath cfg env.ID)) := by
      simp only [cleanupLockStep, ReleaseLock, noCleanupFaults]
      rw [if_neg (by simp)]
    simp only [Cleanup, e1, e2, e3]
    refine ⟨?_, ?_, FS.isFile_removeFile_self _ _ hwf2.1, FS.wf_removeFile _ _ hwf2⟩
    · exact FS.statExists_removeFile_of_false _ _ _
        (FS.statExists_removeFile_of_false _ _ _ hT1)
    · intro _
      exact FS.isFile_removeFile_of_false _ _ _
        (FS.isFile_removeFile_self _ _ hwf1.1)

/-- C7: `Cleanup` (1) treats already-absent resources as success —
with nothing to remove it returns no error, whatever faults are
injected, and leaves the filesystem untouched; (2) with all three
resources present it attempts all three removal steps regardless of
failures in earlier steps, aggregates exactly the real errors, errs
exactly when at least one step really failed, and each resource is
removed whenever its own step is fault-free, independent of the other
steps; (3) consequently it is idempotent: a second `Cleanup` after a
fault-free one is a no-op success. -/
theorem c7_cleanup_aggregates_idempotent (cfg : Config) (f : CleanupFaults)
    (env : Environment) (fs : FS) :
    (fs.statExists env.TempDir = false →
      (env.EnvFile ≠ "" → fs.isFile env.EnvFile = false) →
      fs.isFile (lockFilePath cfg env.ID) = false →
      Cleanup cfg f env fs = ([], fs)) ∧
    (fs.wf → env.EnvFile ≠ "" →
      env.EnvFile ≠ env.TempDir →
      lockFilePath cfg env.ID ≠ env.TempDir →
      lockFilePath cfg env.ID ≠ env.EnvFile →
      fs.statExists env.TempDir = true →
      fs.isFile env.EnvFile = true →
      fs.isFile (lockFilePath cfg env.ID) = true →
      (Cleanup cfg f env fs).1 =
          (if f.tempFail then [CleanupStep.tempDir] else []) ++
          (if f.envFileFail then [CleanupStep.envFile] else []) ++
          (if f.lockFail then [CleanupStep.lock] else []) ∧
        ((Cleanup cfg f env fs).1 = [] ↔
          f.tempFail = false ∧ f.envFileFail = false ∧ f.lockFail = false) ∧
        (f.lockFail = false →
          ((Cleanup cfg f env fs).2).isFile (lockFilePath cfg env.ID) = false) ∧
        (f.envFileFail = false →
          ((Cleanup cfg f env fs).2).isFile env.EnvFile = false) ∧
        (f.tempFail = false →
          ((Cleanup cfg f env fs).2).statExists env.TempDir = false)) ∧
    (fs.wf →
      Cleanup cfg f env ((Cleanup cfg noCleanupFaults env fs).2) =
        ([], (Cleanup cfg noCleanupFaults env fs).2)) := by
  refine ⟨cleanup_absent cfg f env fs, ?_, ?_⟩
  · intro hwf hne hd1 hd2 hd3 hT hE hL
    have e1 : cleanupTempStep f env fs =
        ((if f.tempFail then [CleanupStep.tempDir] else []),
         (if f.tempFail then fs else fs.removeDirAll env.TempDir)) := by
      cases ht : f.tempFail
      · unfold cleanupTempStep
        rw [if_neg (by simp [ht])]
        simp
      · unfold cleanupTempStep
        rw [if_pos ⟨hT, ht⟩]
        simp
    set fs1 := if f.tempFail then fs else fs.removeDirAll env.TempDir with hfs1
    have hwf1 : fs1.wf := by
      rw [hfs1]
      cases f.tempFail
      · simpa using FS.wf_removeDirAll _ _ hwf
      · simpa using hwf
    have hE1 : fs1.isFile env.EnvFile = true := by
      rw [hfs1]
      cases f.tempFail
      · simpa using (FS.isFile_removeDirAll_ne fs _ _ hd1).trans hE
      · simpa using hE
    have hL1 : fs1.isFile (lockFilePath cfg env.ID) = true := by
      rw [hfs1]
      cases f.tempFail
      · simpa using (FS.isFile_removeDirAll_ne fs _ _ hd2).trans hL
      · simpa using hL
    have e2 : cleanupEnvFileStep f env fs1 =
        ((if f.envFileFail then [CleanupStep.envFile] else []),
         (if f.envFileFail then fs1 else fs1.removeFile env.EnvFile)) := by
      cases hev : f.envFileFail
      · unfold cleanupEnvFileStep
        rw [if_neg hne, if_neg (by simp [hev])]
        simp
      · unfold cleanupEnvFileStep
        rw [if_neg hne, if_pos ⟨hE1, hev⟩]
        simp
    set fs2 := if f.envFileFail then fs1 else fs1.removeFile env.EnvFile with hfs2
    have hwf2 : fs2.wf := by
      rw [hfs2]
      cases f.envFileFail
      · simpa using FS.wf_removeFile _ _ hwf1
      · simpa using hwf1
    have hL2 : fs2.isFile (lockFilePath cfg env.ID) = true := by
      rw [hfs2]
      cases f.envFileFail
      · simpa using (FS.isFile_removeFile_ne fs1 _ _ hd3).trans hL1
      · simpa using hL1
    have e3 : cleanupLockStep cfg f env fs2 =
        ((if f.lockFail then [CleanupStep.lock] else []),
         (if f.lockFail then fs2 else fs2.removeFile (lockFilePath cfg env.ID))) := by
      cases hlk : f.lockFail
      · simp only [cleanupLockStep, ReleaseLock]
        rw [if_neg (by simp [hlk])]
        simp
      · simp only [cleanupLockStep, ReleaseLock]
        rw [if_pos ⟨hL2, hlk⟩]
        simp
    have eAll : Cleanup cfg f env fs =
        ((if f.tempFail then [CleanupStep.tempDir] else []) ++
          (if f.envFileFail then [CleanupStep.envFile] else []) ++
          (if f.lockFail then [CleanupStep.lock] else []),
         (if f.lockFail then fs2 else fs2.removeFile (lockFilePath cfg env.ID))) := by
      simp only [Cleanup, e1, ← hfs1, e2, ← hfs2, e3]
    refine ⟨by rw [eAll], ?_, ?_, ?_, ?_⟩
    · rw [eAll]
      cases f.tempFail <;> cases f.envFileFail <;> cases f.lockFail <;> simp
    · intro hlk
      rw [eAll, hlk]
      simp only [if_neg (by simp : ¬(false = true))]
      exact FS.isFile_removeFile_self _ _ hwf2.1
    · intro hev
      rw [eAll]
      have h2 : fs2.isFile env.EnvFile = false := by
        rw [hfs2, hev]
        simpa using FS.isFile_removeFile_self _ _ hwf1.1
      cases f.lockFail
      · simpa using FS.isFile_removeFile_of_false _ _ _ h2
      · simpa using h2
    · intro ht
      have h1 : fs1.statExists env.TempDir = false := by
        rw [hfs1, ht]
        simp only [if_neg (by simp : ¬(false = true))]
        unfold FS.statExists
        rw [FS.isFile_removeDirAll_self _ _ hwf.1, FS.isDir_removeDirAll_self _ _ hwf.2]
        rfl
      have h2 : fs2.statExists env.TempDir = false := by
        rw [hfs2]
        cases f.envFileFail
        · simpa using FS.statExists_removeFile_of_false _ _ _ h1
        · simpa using h1
      rw [eAll]
      cases f.lockFail
      · simpa using FS.statExists_removeFile_of_false _ _ _ h2
      · simpa using h2
  · intro hwf
    obtain ⟨hT3, hE3, hL3, -⟩ := cleanup_noFaults_clears cfg env fs hwf
    exact cleanup_absent cfg f env _ hT3 hE3 hL3

/-- Witness for C7: a fault-free cleanup of a fully provisioned
concrete environment removes everything, reports no error, and a
second cleanup is a no-op success. -/
theorem c7_cleanup_aggregates_idempotent_witness :
    Cleanup ⟨"/wt", "i", "/locks", 9⟩ noCleanupFaults
        ⟨"abc", "/wt", "/tmp/aigis-test-abc", ⟨20000, 5⟩, "/locks/env-abc.lock",
          "/wt/.env.isolation"⟩
        ((Cleanup ⟨"/wt", "i", "/locks", 9⟩ noCleanupFaults
          ⟨"abc", "/wt", "/tmp/aigis-test-abc", ⟨20000, 5⟩, "/locks/env-abc.lock",
            "/wt/.env.isolation"⟩
          ⟨[("/locks/env-abc.lock", "m"), ("/wt/.env.isolation", "e")],
            ["/tmp/aigis-test-abc"]⟩).2) =
      ([], (Cleanup ⟨"/wt", "i", "/locks", 9⟩ noCleanupFaults
          ⟨"abc", "/wt", "/tmp/aigis-test-abc", ⟨20000, 5⟩, "/locks/env-abc.lock",
            "/wt/.env.isolation"⟩
          ⟨[("/locks/env-abc.lock", "m"), ("/wt/.env.isolation", "e")],
            ["/tmp/aigis-test-abc"]⟩).2) := by
  exact (c7_cleanup_aggregates_idempotent ⟨"/wt", "i", "/locks", 9⟩ noCleanupFaults
    ⟨"abc", "/wt", "/tmp/aigis-test-abc", ⟨20000, 5⟩, "/locks/env-abc.lock",
      "/wt/.env.isolation"⟩
    ⟨[("/locks/env-abc.lock", "m"), ("/wt/.env.isolation", "e")],
      ["/tmp/aigis-test-abc"]⟩).2.2
    ⟨by decide, by decide⟩

/-! ## CreateEnvironment rollback lemmas -/

theorem FS.eraseP_files_of_not_isFile (fs : FS) (p : String)
    (h : fs.isFile p = false) :
    fs.files.eraseP (fun e => e.1 == p) = fs.files := by
  unfold FS.isFile FS.fileContent at h
  rcases ho : fs.files.find? (fun e => e.1 == p) with - | e
  · exact List.eraseP_of_forall_not (by rw [List.find?_eq_none] at ho; exact ho)
  · rw [ho] at h
    simp at h

theorem FS.isFile_writeFile_ne (fs : FS) (p q c : String) (h : p ≠ q) :
    (fs.writeFile q c).isFile p = fs.isFile p := by
  unfold FS.isFile FS.fileContent FS.writeFile
  rw [List.find?_cons_of_neg _ (by simp [Ne.symm h]), find?_eraseP_of_ne _ _ _ h]

theorem FS.isDir_writeFile (fs : FS) (p q c : String) :
    (fs.writeFile q c).isDir p = fs.isDir p := rfl

theorem FS.removeFile_writeFile_cancel (fs : FS) (p c : String)
    (h : fs.isFile p = false) : (fs.writeFile p c).removeFile p = fs := by
  unfold FS.writeFile FS.removeFile
  rw [List.eraseP_cons_of_pos (by simp), FS.eraseP_files_of_not_isFile fs p h]

theorem FS.removeDirAll_mkdir_cancel (fs : FS) (p : String)
    (h1 : fs.isFile p = false) (h2 : fs.isDir p = false) :
    (fs.mkdir p).removeDirAll p = fs := by
  unfold FS.mkdir
  rw [if_neg (by unfold FS.isDir at h2; simpa using h2)]
  unfold FS.removeDirAll
  rw [show ({ fs with dirs := p :: fs.dirs } : FS).files = fs.files from rfl,
    FS.eraseP_files_of_not_isFile fs p h1,
    show ({ fs with dirs := p :: fs.dirs } : FS).dirs = p :: fs.dirs from rfl,
    List.erase_cons_head]

/-- C3: whenever `CreateEnvironment` fails at any step (id generation,
lock creation, port allocation, temp-directory creation, or
descriptor-file creation), everything the earlier steps of that call
created is rolled back before the error is returned: the filesystem is
exactly as it was — the lock is released, the temp directory removed,
and no descriptor file remains.  (The id is fresh, as `Generate`
guarantees: no lock file or temp directory for it pre-exists, and its
two paths are distinct.) -/
theorem c3_create_environment_rollback (cfg : Config) (tmpRoot : String)
    (pid ts : Int) (f : CreateFaults) (id : String) (basePort portsNeeded : Int)
    (fs : FS)
    (hLock : fs.statExists (lockFilePath cfg id) = false)
    (hTmp : fs.statExists (tmpDirPath tmpRoot id) = false)
    (hne : lockFilePath cfg id ≠ tmpDirPath tmpRoot id) :
    (CreateEnvironment cfg tmpRoot pid ts f id basePort portsNeeded fs).1 = .error () →
    (CreateEnvironment cfg tmpRoot pid ts f id basePort portsNeeded fs).2 = fs := by
  obtain ⟨hLf, hLd⟩ := Bool.or_eq_false_iff.mp hLock
  obtain ⟨hTf, hTd⟩ := Bool.or_eq_false_iff.mp hTmp
  rcases f with ⟨gen, lockW, ports, mkdir, create⟩
  cases gen
  · intro _
    simp [CreateEnvironment]
  · cases lockW
    · intro _
      simp [CreateEnvironment, CreateLock, hLock]
    · -- the lock is created; every later failure must undo it
      have hcl : CreateLock cfg pid ts true id fs =
          .ok (lockFilePath cfg id,
            fs.writeFile (lockFilePath cfg id) (lockMetadata pid ts cfg.WorktreePath)) := by
        simp [CreateLock, hLock]
      have hrel : (ReleaseLock cfg false id
          (fs.writeFile (lockFilePath cfg id) (lockMetadata pid ts cfg.WorktreePath))).2 = fs := by
        simp only [ReleaseLock]
        rw [if_neg (by simp)]
        exact FS.removeFile_writeFile_cancel fs _ _ hLf
      cases ports
      · intro _
        simp only [CreateEnvironment, Bool.not_true, Bool.not_false, hcl]
        simpa using hrel
      · cases mkdir
        · intro _
          simp only [CreateEnvironment, Bool.not_true, Bool.not_false, hcl]
          simpa using hrel
        · cases create
          · -- descriptor-file failure: rollback via the fault-free Cleanup
            intro _
            simp only [CreateEnvironment, Bool.not_true, Bool.not_false, hcl,
              createEnvFile]
            set fs1 := fs.writeFile (lockFilePath cfg id)
              (lockMetadata pid ts cfg.WorktreePath) with hfs1
            have hT1f : fs1.isFile (tmpDirPath tmpRoot id) = false := by
              rw [hfs1, FS.isFile_writeFile_ne fs _ _ _ (Ne.symm hne)]
              exact hTf
            have hT1d : fs1.isDir (tmpDirPath tmpRoot id) = false := hTd
            have hmk : (fs1.mkdir (tmpDirPath tmpRoot id)).removeDirAll
                (tmpDirPath tmpRoot id) = fs1 :=
              FS.removeDirAll_mkdir_cancel fs1 _ hT1f hT1d
            have hc : Cleanup cfg noCleanupFaults
                ⟨id, cfg.WorktreePath, tmpDirPath tmpRoot id, ⟨basePort, portsNeeded⟩,
                  lockFilePath cfg id, ""⟩
                (fs1.mkdir (tmpDirPath tmpRoot id)) = ([], fs) := by
              have e1 : cleanupTempStep noCleanupFaults
                  ⟨id, cfg.WorktreePath, tmpDirPath tmpRoot id, ⟨basePort, portsNeeded⟩,
                    lockFilePath cfg id, ""⟩
                  (fs1.mkdir (tmpDirPath tmpRoot id)) = ([], fs1) := by
                unfold cleanupTempStep
                rw [if_neg (by simp [noCleanupFaults])]
                rw [hmk]
              have e2 : cleanupEnvFileStep noCleanupFaults
                  ⟨id, cfg.WorktreePath, tmpDirPath tmpRoot id, ⟨basePort, portsNeeded⟩,
                    lockFilePath cfg id, ""⟩ fs1 = ([], fs1) := by
                unfold cleanupEnvFileStep
                rw [if_pos rfl]
              have e3 : cleanupLockStep cfg noCleanupFaults
                  ⟨id, cfg.WorktreePath, tmpDirPath tmpRoot id, ⟨basePort, portsNeeded⟩,
                    lockFilePath cfg id, ""⟩ fs1 = ([], fs) := by
                simp only [cleanupLockStep, ReleaseLock, noCleanupFaults]
                rw [if_neg (by simp)]
                rw [hfs1]
                rw [FS.removeFile_writeFile_cancel fs _ _ hLf]
              simp only [Cleanup, e1, e2, e3, List.append_nil]
            simpa using congrArg Prod.snd hc
          · -- all steps succeed: no error is returned
            intro hcontra
            exfalso
            simp [CreateEnvironment, Bool.not_true, Bool.not_false, hcl,
              createEnvFile] at hcontra

/-- Witness for C3: a descriptor-file creation failure on an empty
filesystem rolls everything back. -/
theorem c3_create_environment_rollback_witness :
    (CreateEnvironment ⟨"/wt", "i", "/locks", 9⟩ "/tmp" 1 2
      ⟨true, true, true, true, false⟩ "abc" 20000 5 ⟨[], []⟩).2 = ⟨[], []⟩ := by
  exact c3_create_environment_rollback ⟨"/wt", "i", "/locks", 9⟩ "/tmp" 1 2
    ⟨true, true, true, true, false⟩ "abc" 20000 5 ⟨[], []⟩
    (by decide) (by decide) (by decide) (by rfl)

/-! ## Allocator lemmas -/

theorem allocLoop_ne_insufficient (s : Int) (avail : Int → Bool) (rand : Nat → Nat)
    (n : Int) (pr : Nat) :
    ∀ fuel attempt, allocLoop s avail rand n pr attempt fuel ≠ .error .insufficientRange := by
  intro fuel
  induction fuel with
  | zero => intro attempt h; exact absurd h (by simp [allocLoop])
  | succ k ih =>
    intro attempt h
    simp only [allocLoop] at h
    split at h
    · exact absurd h (by simp)
    · exact ih (attempt + 1) h

theorem allocLoop_ok_bounds (s : Int) (avail : Int → Bool) (rand : Nat → Nat)
    (n : Int) (pr : Nat) (hpr : 0 < pr) :
    ∀ fuel attempt b, allocLoop s avail rand n pr attempt fuel = .ok b →
      s ≤ b ∧ b < s + (pr : Int) := by
  intro fuel
  induction fuel with
  | zero => intro attempt b h; exact absurd h (by simp [allocLoop])
  | succ k ih =>
    intro attempt b h
    simp only [allocLoop] at h
    split at h
    · have hb : s + ((rand attempt % pr : Nat) : Int) = b := Except.ok.inj h
      have hmod : rand attempt % pr < pr := Nat.mod_lt _ hpr
      omega
    · exact ih (attempt + 1) b h

/-- Counterexample to C5 as stated: with `StartPort = 100`,
`EndPort = 110` and `n = 10` we have `StartPort + n ≤ EndPort`, yet
`AllocateRange` rejects the request as out of range (the code requires
`EndPort - StartPort - n > 0`, i.e. `StartPort + n < EndPort`), for
any availability and randomness. -/
theorem c5_allocate_range_counterexample :
    (100 : Int) + 10 ≤ 110 ∧ (0 : Int) < 10 ∧
    AllocateRange ⟨100, 110, 10⟩ (fun _ => true) (fun _ => 0) 10 =
      .error .insufficientRange := by
  exact ⟨by norm_num, by norm_num, by rfl⟩

/-- C5 (amended): for `n > 0`, `AllocateRange(n)` rejects the request
as out of range exactly when `StartPort + n ≥ EndPort` (not
`StartPort + n > EndPort` as claimed); candidate base ports are drawn
from exactly `[StartPort, EndPort - n)` — every returned base
satisfies `StartPort ≤ basePort` and the strict `basePort + n <
EndPort`, and conversely every base in that interval is reachable by
some draw of the random source (the base `EndPort - n` allowed by the
claim is never sampled). -/
theorem c5_allocate_range_sampling (cfg : AllocatorConfig) (avail : Int → Bool)
    (rand : Nat → Nat) (n : Int) (hn : 0 < n) :
    (AllocateRange cfg avail rand n = .error .insufficientRange ↔
      cfg.EndPort - cfg.StartPort - n ≤ 0) ∧
    (∀ b, AllocateRange cfg avail rand n = .ok b →
      cfg.StartPort ≤ b ∧ b + n < cfg.EndPort) ∧
    (∀ b, cfg.StartPort ≤ b → b + n < cfg.EndPort →
      arePortsAvailable avail b n = true → 0 < cfg.MaxRetries →
      AllocateRange cfg avail (fun _ => (b - cfg.StartPort).toNat) n = .ok b) := by
  refine ⟨?_, ?_, ?_⟩
  · simp only [AllocateRange]
    rw [if_neg (not_le.mpr hn)]
    by_cases hpr : cfg.EndPort - cfg.StartPort - n ≤ 0
    · rw [if_pos hpr]
      simp [hpr]
    · rw [if_neg hpr]
      simp only [iff_false_intro hpr, iff_false]
      exact allocLoop_ne_insufficient _ _ _ _ _ _ _
  · intro b hb
    simp only [AllocateRange] at hb
    rw [if_neg (not_le.mpr hn)] at hb
    by_cases hpr : cfg.EndPort - cfg.StartPort - n ≤ 0
    · rw [if_pos hpr] at hb
      exact absurd hb (by simp)
    · rw [if_neg hpr] at hb
      push_neg at hpr
      have hpr' : 0 < (cfg.EndPort - cfg.StartPort - n).toNat := by omega
      have := allocLoop_ok_bounds cfg.StartPort avail rand n _ hpr' _ _ _ hb
      omega
  · intro b hb1 hb2 hav hretr
    simp only [AllocateRange]
    rw [if_neg (not_le.mpr hn)]
    have hpr : ¬ cfg.EndPort - cfg.StartPort - n ≤ 0 := by omega
    rw [if_neg hpr]
    obtain ⟨m, hm⟩ : ∃ m, cfg.MaxRetries = m + 1 :=
      ⟨cfg.MaxRetries - 1, by omega⟩
    rw [hm]
    simp only [allocLoop]
    have hlt : (b - cfg.StartPort).toNat < (cfg.EndPort - cfg.StartPort - n).toNat := by
      omega
    rw [Nat.mod_eq_of_lt hlt]
    have hbase : cfg.StartPort + ((b - cfg.StartPort).toNat : Int) = b := by omega
    rw [hbase, if_pos hav]

/-- Witness for C5 (amended) at a concrete configuration. -/
theorem c5_allocate_range_sampling_witness :
    AllocateRange ⟨20000, 30000, 10⟩ (fun _ => true)
      (fun _ => ((29994 : Int) - 20000).toNat) 5 = .ok 29994 := by
  exact (c5_allocate_range_sampling ⟨20000, 30000, 10⟩ (fun _ => true)
    (fun _ => 0) 5 (by norm_num)).2.2 29994 (by norm_num) (by norm_num)
    (by decide) (by norm_num)

/-! ## Identifier-generation lemmas -/

theorem hexDigitChar_isHex (n : Nat) (h : n < 16) :
    isHexChar (hexDigitChar n) = true := by
  have : ∀ m : Fin 16, isHexChar (hexDigitChar (m : Nat)) = true := by decide
  exact this ⟨n, h⟩

theorem hexByte_length (b : Fin 256) : (hexByte b).length = 2 := rfl

theorem hexByte_hex (b : Fin 256) : (hexByte b).data.all isHexChar = true := by
  show (isHexChar (hexDigitChar ((b : Nat) / 16)) &&
    (isHexChar (hexDigitChar ((b : Nat) % 16)) && true)) = true
  rw [hexDigitChar_isHex _ (Nat.div_lt_of_lt_mul b.isLt),
    hexDigitChar_isHex _ (Nat.mod_lt _ (by norm_num))]
  rfl

theorem baseIDOf_split (h : Nat → Fin 256) :
    baseIDOf h = hexByte (h 0) ++ hexByte (h 1) ++ hexByte (h 2) ++
      hexByte (h 3) ++ hexByte (h 4) ++ hexByte (h 5) := rfl

theorem baseIDOf_length (h : Nat → Fin 256) : (baseIDOf h).length = 12 := by
  rw [baseIDOf_split]
  simp [hexByte_length]

theorem baseIDOf_hex (h : Nat → Fin 256) :
    (baseIDOf h).data.all isHexChar = true := by
  rw [baseIDOf_split]
  simp only [String.data_append, List.all_append, hexByte_hex, Bool.and_self]

theorem padNat_length_ge (w n : Nat) : w ≤ (padNat w n).length := by
  simp only [padNat]
  split
  · next hlt =>
    rw [String.length_append, String.length_mk, List.length_replicate]
    omega
  · next hge => omega

theorem goPad0_length_ge (w : Nat) (v : Int) : w ≤ (goPad0 w v).length := by
  unfold goPad0
  split
  · rw [String.length_append]
    have := padNat_length_ge (w - 1) v.natAbs
    have : ("-" : String).length = 1 := rfl
    omega
  · exact padNat_length_ge w v.toNat

theorem genLoop_ok (o : GenOracles) (occ : String → Bool) (base : String) :
    ∀ fuel counter id, genLoop o occ base counter fuel = .ok id →
      ∃ k, counter ≤ k ∧ id = candidateID o base k := by
  intro fuel
  induction fuel with
  | zero => intro counter id h; exact absurd h (by simp [genLoop])
  | succ m ih =>
    intro counter id h
    simp only [genLoop] at h
    split at h
    · exact ⟨counter, le_refl _, (Except.ok.inj h).symm⟩
    · obtain ⟨k, hk, he⟩ := ih (counter + 1) id h
      exact ⟨k, by omega, he⟩

/-- Counterexample to C6 as stated: when the 12-character base token
collides with an existing lock file, the retry path returns a
19-character identifier (`baseID` + 4 random digits + 3 counter
digits), not a 12-character one. -/
theorem c6_generate_counterexample :
    Generate ⟨"/wt", "inst", "/locks", 999⟩ "/tmp" ⟨fun _ => 0, fun _ => 42⟩
      ⟨[("/locks/env-000000000000.lock", "x")], []⟩ = .ok "0000000000000042001" ∧
    ("0000000000000042001" : String).length ≠ 12 := by
  exact ⟨by rfl, by decide⟩

/-- C6 (amended): a successful `Generate` returns either the base
token — the truncated hash, exactly 12 lowercase-hex characters —
when the first attempt is collision-free, or, on the collision-retry
path, that 12-character base extended by the zero-padded random and
counter fields to at least 19 characters; and when no lock file or
temp directory exists for the base token, `Generate` returns exactly
the base token. -/
theorem c6_generate_id_shape (cfg : Config) (tmpRoot : String) (o : GenOracles)
    (fs : FS) :
    (∀ id, Generate cfg tmpRoot o fs = .ok id →
      (id = baseIDOf o.hashBytes ∧ id.length = 12 ∧
        id.data.all isHexChar = true) ∨
      (∃ t, id = baseIDOf o.hashBytes ++ t ∧ 19 ≤ id.length)) ∧
    (fs.statExists (lockFilePath cfg (baseIDOf o.hashBytes)) = false →
     fs.statExists (tmpDirPath tmpRoot (baseIDOf o.hashBytes)) = false →
     0 < cfg.MaxRetries →
     Generate cfg tmpRoot o fs = .ok (baseIDOf o.hashBytes)) := by
  constructor
  · intro id h
    obtain ⟨k, -, he⟩ := genLoop_ok o _ _ _ _ _ h
    rcases Nat.eq_zero_or_pos k with hk | hk
    · subst hk
      left
      exact ⟨he, he ▸ baseIDOf_length o.hashBytes, he ▸ baseIDOf_hex o.hashBytes⟩
    · right
      rw [he]
      unfold candidateID
      rw [if_neg (by omega)]
      refine ⟨goPad0 4 ((o.addRand k).tmod 10000) ++ goPad0 3 k,
        String.append_assoc _ _ _, ?_⟩
      rw [String.length_append, String.length_append, baseIDOf_length]
      have h4 := goPad0_length_ge 4 ((o.addRand k).tmod 10000)
      have h3 := goPad0_length_ge 3 k
      omega
  · intro h1 h2 h3
    unfold Generate
    obtain ⟨m, hm⟩ : ∃ m, cfg.MaxRetries = m + 1 := ⟨cfg.MaxRetries - 1, by omega⟩
    rw [hm]
    simp only [genLoop, candidateID, if_pos rfl]
    rw [if_pos (by simp [h1, h2])]
    simp

/-- Witness for C6 (amended): on an empty filesystem the first attempt
succeeds with the 12-character truncated hash. -/
theorem c6_generate_id_shape_witness :
    Generate ⟨"/wt", "inst", "/locks", 999⟩ "/tmp" ⟨fun _ => 0, fun _ => 42⟩
      ⟨[], []⟩ = .ok "000000000000" := by
  have h := (c6_generate_id_shape ⟨"/wt", "inst", "/locks", 999⟩ "/tmp"
    ⟨fun _ => 0, fun _ => 42⟩ ⟨[], []⟩).2 (by decide) (by decide) (by decide)
  exact h

/-! ## Reconcile lemmas -/

theorem length_filterMap_filter {α β : Type} (p : α → Bool) (f : α → Option β) :
    ∀ l : List α, ((l.filter p).filterMap f).length =
      l.countP (fun e => p e && (f e).isSome) := by
  intro l
  induction l with
  | nil => rfl
  | cons x xs ih =>
    by_cases hx : p x = true
    · rw [List.filter_cons_of_pos hx, List.filterMap_cons]
      rcases hf : f x with - | y
      · rw [List.countP_cons, ih]
        simp [hx, hf]
      · rw [List.length_cons, List.countP_cons, ih]
        simp [hx, hf]
    · rw [List.filter_cons_of_neg (by simpa using hx), List.countP_cons, ih]
      simp [hx]

theorem countP_erase_of_mem {α : Type} [DecidableEq α] (q : α → Bool) :
    ∀ (l : List α) (e : α), e ∈ l → q e = true →
      l.countP q = (l.erase e).countP q + 1 := by
  intro l
  induction l with
  | nil => intro e he; exact absurd he (by simp)
  | cons x xs ih =>
    intro e he hq
    by_cases hx : x = e
    · subst hx
      rw [List.erase_cons_head, List.countP_cons]
      simp [hq]
    · have he' : e ∈ xs := by
        rcases List.mem_cons.mp he with h | h
        · exact absurd h.symm hx
        · exact h
      rw [List.erase_cons_tail (by simp [hx]), List.countP_cons, List.countP_cons,
        ih e he' hq]
      omega

/-- C1: `Reconcile` replaces the state document wholesale — its result
is independent of the previous document and the file afterwards holds
exactly the rebuilt document — with exactly one entry per lock-pattern
file that parses successfully; the returned count is the number of
entries written; a file that fails to parse (bad name, or unreadable
content) is skipped without failing the scan; removing one
successfully-parsing lock file and reconciling again yields one fewer
entry; and on the concrete three-lock-file scenario (descriptors
`PORT_BASE=20000/20100/20200`, `PORT_COUNT=5`) it yields exactly the
three environments with correctly parsed port sets, then two after a
removal. -/
theorem c1_reconcile_rebuild (tmpRoot lockDir : String)
    (envFS : String → Option String) (listing : List LockEntry) (now : Int)
    (prev prev' : StateFile) :
    (Reconcile tmpRoot envFS lockDir listing now prev =
      Reconcile tmpRoot envFS lockDir listing now prev') ∧
    ((Reconcile tmpRoot envFS lockDir listing now prev).2 =
      .doc (Reconcile tmpRoot envFS lockDir listing now prev).1.2) ∧
    ((Reconcile tmpRoot envFS lockDir listing now prev).1.1 =
      ((Reconcile tmpRoot envFS lockDir listing now prev).1.2).Environments.length) ∧
    ((Reconcile tmpRoot envFS lockDir listing now prev).1.1 =
      listing.countP (fun e => matchesLockPattern e.name &&
        (parseLockFile tmpRoot envFS lockDir e).isSome)) ∧
    (∀ e, matchesLockPattern e.name = false ∨
        parseLockFile tmpRoot envFS lockDir e = none →
      Reconcile tmpRoot envFS lockDir (e :: listing) now prev =
        Reconcile tmpRoot envFS lockDir listing now prev) ∧
    (∀ e ∈ listing, matchesLockPattern e.name = true →
      (parseLockFile tmpRoot envFS lockDir e).isSome = true →
      (Reconcile tmpRoot envFS lockDir (listing.erase e) now prev).1.1 + 1 =
        (Reconcile tmpRoot envFS lockDir listing now prev).1.1) ∧
    ((Reconcile "/tmp" scenarioEnvFS "/locks" scenarioListing 7 .missing).1 =
      (3, ⟨CurrentVersion,
        [scenarioEnvState "0" "/w0" 20000, scenarioEnvState "1" "/w1" 20100,
         scenarioEnvState "2" "/w2" 20200], 7⟩)) ∧
    ((Reconcile "/tmp" scenarioEnvFS "/locks"
        (scenarioListing.erase (scenarioEntry "0" "/w0")) 7 .missing).1.1 = 2) := by
  refine ⟨rfl, rfl, rfl, ?_, ?_, ?_, by decide, by decide⟩
  · exact length_filterMap_filter _ _ listing
  · intro e he
    rcases he with hm | hp
    · simp [Reconcile, List.filter_cons, hm]
    · by_cases hm : matchesLockPattern e.name = true
      · simp [Reconcile, List.filter_cons, hm, List.filterMap_cons, hp]
      · simp [Reconcile, List.filter_cons, hm]
  · intro e he hm hs
    have h1 : (Reconcile tmpRoot envFS lockDir listing now prev).1.1 =
        listing.countP (fun e => matchesLockPattern e.name &&
          (parseLockFile tmpRoot envFS lockDir e).isSome) :=
      length_filterMap_filter _ _ listing
    have h2 : (Reconcile tmpRoot envFS lockDir (listing.erase e) now prev).1.1 =
        (listing.erase e).countP (fun e => matchesLockPattern e.name &&
          (parseLockFile tmpRoot envFS lockDir e).isSome) :=
      length_filterMap_filter _ _ _
    rw [h1, h2, countP_erase_of_mem _ listing e he (by simp [hm, hs])]

/-- Witness for C1 on the three-lock scenario: removing the first lock
file drops the count from 3 to 2. -/
theorem c1_reconcile_rebuild_witness :
    (Reconcile "/tmp" scenarioEnvFS "/locks"
        (scenarioListing.erase (scenarioEntry "0" "/w0")) 7 .missing).1.1 + 1 =
      (Reconcile "/tmp" scenarioEnvFS "/locks" scenarioListing 7 .missing).1.1 := by
  exact (c1_reconcile_rebuild "/tmp" "/locks" scenarioEnvFS scenarioListing 7
    .missing .missing).2.2.2.2.2.1 (scenarioEntry "0" "/w0") (by decide)
    (by decide) (by decide)

/-- Counterexample to C2 as stated: `Reconcile` opens the state file
with `O_TRUNC` *before* acquiring the exclusive flock
(`reconcile.go:57` vs `:63`), so its very first syscall mutates the
file — from a complete document to an empty file — at a point where
the exclusive lock is not held; immediately afterwards, still before
the lock is acquired, the file does not contain a complete JSON state
document. -/
theorem c2_locking_counterexample :
    (stStepsFrom ⟨.doc exampleDoc, false⟩ (reconcileTrace exampleWritten)).head? =
      some (⟨.doc exampleDoc, false⟩, .openCreateTrunc) ∧
    stMutates (.doc exampleDoc) .openCreateTrunc = true ∧
    ((stExec ⟨.doc exampleDoc, false⟩ (reconcileTrace exampleWritten))[1]? =
      some ⟨.emptyFile, false⟩) ∧
    isCompleteDoc .emptyFile = false := by
  exact ⟨rfl, rfl, rfl, rfl⟩

/-- C2 (amended): `RecordEnvironment` and `RemoveEnvironment` truncate
and rewrite the state file only while holding the exclusive advisory
lock — starting from a complete document, every point of their
execution at which the lock is not held shows a complete document, and
every content-mutating syscall happens under the lock.  `Reconcile`
also performs all of `writeState` (truncate, JSON write) under the
lock, but its initial `O_TRUNC` open empties the file before the lock
is acquired, so a concurrent reader can observe an empty (not torn)
file during that window. -/
theorem c2_locking_discipline (s₀ sW : State) :
    (∀ st ∈ stExec ⟨.doc s₀, false⟩ (recordEnvironmentTrace sW),
      st.exclusiveHeld = false → isCompleteDoc st.content = true) ∧
    (∀ st ∈ stExec ⟨.doc s₀, false⟩ (removeEnvironmentTrace sW),
      st.exclusiveHeld = false → isCompleteDoc st.content = true) ∧
    (∀ pr ∈ stStepsFrom ⟨.doc s₀, false⟩ (recordEnvironmentTrace sW),
      stMutates pr.1.content pr.2 = true → pr.1.exclusiveHeld = true) ∧
    (∀ pr ∈ stStepsFrom ⟨.doc s₀, false⟩ (removeEnvironmentTrace sW),
      stMutates pr.1.content pr.2 = true → pr.1.exclusiveHeld = true) ∧
    (∀ pr ∈ stStepsFrom ⟨.doc s₀, false⟩ (reconcileTrace sW),
      pr.2 ≠ .openCreateTrunc →
      stMutates pr.1.content pr.2 = true → pr.1.exclusiveHeld = true) := by
  refine ⟨?_, ?_, ?_, ?_, ?_⟩
  · intro st hst
    simp only [recordEnvironmentTrace, writeStateActions, List.cons_append,
      List.nil_append, stExec, stStep, List.mem_cons, List.not_mem_nil, or_false] at hst
    rcases hst with rfl | rfl | rfl | rfl | rfl | rfl | rfl | rfl <;>
      simp [isCompleteDoc]
  · intro st hst
    simp only [removeEnvironmentTrace, writeStateActions, List.cons_append,
      List.nil_append, stExec, stStep, List.mem_cons, List.not_mem_nil, or_false] at hst
    rcases hst with rfl | rfl | rfl | rfl | rfl | rfl | rfl | rfl <;>
      simp [isCompleteDoc]
  · intro pr hpr
    simp only [recordEnvironmentTrace, writeStateActions, List.cons_append,
      List.nil_append, stStepsFrom, stStep, List.mem_cons, List.not_mem_nil,
      or_false] at hpr
    rcases hpr with rfl | rfl | rfl | rfl | rfl | rfl | rfl <;>
      simp [stMutates, stStep]
  · intro pr hpr
    simp only [removeEnvironmentTrace, writeStateActions, List.cons_append,
      List.nil_append, stStepsFrom, stStep, List.mem_cons, List.not_mem_nil,
      or_false] at hpr
    rcases hpr with rfl | rfl | rfl | rfl | rfl | rfl | rfl <;>
      simp [stMutates, stStep]
  · intro pr hpr hne
    simp only [reconcileTrace, writeStateActions, List.cons_append,
      List.nil_append, stStepsFrom, stStep, List.mem_cons, List.not_mem_nil,
      or_false] at hpr
    rcases hpr with rfl | rfl | rfl | rfl | rfl | rfl <;>
      simp_all [stMutates, stStep]

/-- Witness for C2 (amended), instantiated on the record trace's final
state. -/
theorem c2_locking_discipline_witness :
    isCompleteDoc (⟨.doc exampleWritten, false⟩ : LockTraceState).content = true := by
  exact (c2_locking_discipline exampleDoc exampleWritten).1
    ⟨.doc exampleWritten, false⟩ (by decide) rfl

/-- C10: when the state file does not exist, `ListEnvironments`
returns the empty list without error and without creating the file,
and `GetEnvironment` on any id returns a "not found" error, likewise
leaving the file uncreated. -/
theorem c10_missing_state_file (id : String) :
    ListEnvironments .missing = (.ok [], .missing) ∧
    GetEnvironment .missing id = (.error (.notFound id), .missing) := by
  exact ⟨rfl, rfl⟩

/-- C9: `GetEnvironmentStatus` is `active` exactly when the recorded
pid is positive and the signal-0 probe succeeds on it; a pid `≤ 0` is
always `stale`; and (given that the calling process is alive, i.e.
its pid is positive and probes successfully) an entry recording the
caller's own pid is `active`. -/
theorem c9_environment_status (signalOk : Int → Bool) (env : EnvironmentState)
    (ownPid : Int) (hown : 0 < ownPid) (hsig : signalOk ownPid = true) :
    (GetEnvironmentStatus signalOk env = .active ↔
      0 < env.PID ∧ signalOk env.PID = true) ∧
    (env.PID ≤ 0 → GetEnvironmentStatus signalOk env = .stale) ∧
    (env.PID = ownPid → GetEnvironmentStatus signalOk env = .active) := by
  refine ⟨?_, ?_, ?_⟩
  · unfold GetEnvironmentStatus IsProcessRunning
    by_cases hle : env.PID ≤ 0
    · rw [if_pos hle]
      simp [not_lt.mpr hle]
    · rw [if_neg hle]
      have hpos : 0 < env.PID := not_le.mp hle
      by_cases hs : signalOk env.PID = true
      · simp [hs, hpos]
      · simp [hs]
  · intro h
    unfold GetEnvironmentStatus IsProcessRunning
    rw [if_pos h]
    rfl
  · intro h
    unfold GetEnvironmentStatus IsProcessRunning
    rw [h, if_neg (not_le.mpr hown), hsig]
    rfl

/-- Witness for C9: a concrete probe oracle and an entry recording the
caller's pid 4242. -/
theorem c9_environment_status_witness :
    GetEnvironmentStatus (fun p => p == 4242)
      { ID := "e", PID := 4242, CreatedAt := 0, WorktreePath := "", TempDir := "",
        LockFile := "", EnvFile := "", Ports := {} } = .active := by
  exact (c9_environment_status (fun p => p == 4242) _ 4242 (by decide) (by decide)).2.2 rfl

end GoPortalloc
